import Mathlib

/-!
Shallow embedding of the BCF2 reader (`src/bcf2.rs`) and proofs about it.

Conventions of the embedding:
* Machine integers are modelled as `Nat` with explicit `% 2^w` where wrap-around
  matters (release-profile wrapping semantics, which the genotype decoder relies on).
* `f32` values are modelled by their IEEE-754 bit pattern (a `Nat < 2^32`); the Rust
  value cast `x as u32` (round toward zero, saturating, NaN to 0) is modelled
  explicitly by `f32_as_u32`.
* A byte stream is a `List Nat` of byte values; `std::io::Cursor` is a buffer plus a
  position.  A read past the end of the data is an `UnexpectedEof` error, which the
  source turns into a panic via `unwrap`; panics and assertion failures are modelled
  as `none` / a dedicated `fatal` outcome.
* Rust strings are modelled as `List Char` (the header text is ASCII, so byte indices
  and char indices coincide); `HashMap<String,String>` is an association list where
  insertion conses and lookup takes the first match, reproducing overwrite semantics.
-/

/-! ## Integer sentinel classification (`impl Bcf2Number for u8/u16/u32`) -/

def u8_is_missing (v : Nat) : Bool := v == 0x80

def u8_is_end_of_vector (v : Nat) : Bool := v == 0x81

def u8_is_reserved_value (v : Nat) : Bool := decide (0x80 ≤ v) && decide (v ≤ 0x87)

def u16_is_missing (v : Nat) : Bool := v == 0x8000

def u16_is_end_of_vector (v : Nat) : Bool := v == 0x8001

def u16_is_reserved_value (v : Nat) : Bool := decide (0x8000 ≤ v) && decide (v ≤ 0x8007)

def u32_is_missing (v : Nat) : Bool := v == 0x80000000

def u32_is_end_of_vector (v : Nat) : Bool := v == 0x80000001

def u32_is_reserved_value (v : Nat) : Bool :=
  decide (0x80000000 ≤ v) && decide (v ≤ 0x80000007)

/-! ## Float sentinel classification (`impl Bcf2Number for f32`)

The source compares `(*self) as u32` against the sentinel constants.  The Rust
float-to-integer `as` cast rounds toward zero, saturates at the target range, and
maps NaN to 0.  `f32_as_u32 b` is that cast applied to the float whose bit pattern
is `b` (sign `s`, biased exponent `e`, fraction `f`). -/

def f32_as_u32 (b : Nat) : Nat :=
  let s := b / 2147483648
  let e := (b / 8388608) % 256
  let f := b % 8388608
  if e = 255 then
    if f ≠ 0 then 0
    else if s = 1 then 0 else 4294967295
  else if s = 1 then 0
  else if e < 127 then 0
  else if 159 ≤ e then 4294967295
  else if 150 ≤ e then (8388608 + f) * 2 ^ (e - 150)
  else (8388608 + f) / 2 ^ (150 - e)

def f32_is_missing (b : Nat) : Bool := f32_as_u32 b == 0x7FC00000

def f32_is_end_of_vector (b : Nat) : Bool := f32_as_u32 b == 0x7FC00001

def f32_is_reserved_value (b : Nat) : Bool :=
  decide (0x7FC00001 ≤ f32_as_u32 b) && decide (f32_as_u32 b ≤ 0x7FC00007)

/-! ## Width table (`bcf2_typ_width`); the `panic!` arm is `none` -/

def bcf2_typ_width (typ : Nat) : Option Nat :=
  match typ with
  | 0 => some 0
  | 1 => some 1
  | 2 => some 2
  | 3 => some 3
  | 5 => some 3
  | 7 => some 1
  | _ => none

/-! ## `NumbericValue` and its accessors -/

inductive NumValue where
  | u8 (v : Nat)
  | u16 (v : Nat)
  | u32 (v : Nat)
  | f32 (bits : Nat)
deriving DecidableEq

def int_val : NumValue → Option Nat
  | NumValue.u8 v => if u8_is_missing v then none else some v
  | NumValue.u16 v => if u16_is_missing v then none else some v
  | NumValue.u32 v => if u32_is_missing v then none else some v
  | NumValue.f32 _ => none

def float_val : NumValue → Option Nat
  | NumValue.f32 b => if f32_is_missing b then none else some b
  | _ => none

/-- Source `NumbericValue::gt_val`.  `u32` arithmetic wraps modulo `2^32`:
`int_val + 1 == 0` detects the all-ones raw value, and `(int_val >> 1) - 1`
wraps when `int_val >> 1 = 0`.  The `allele` variable is initialised to
`u32::MAX` and is only overwritten in the final branch. -/
def gt_val (nv : NumValue) : Bool × Bool × Bool × Nat :=
  match int_val nv with
  | none => (true, false, false, 4294967295)
  | some v =>
    if (v + 1) % 4294967296 = 0 then (false, true, false, 4294967295)
    else (false, false, v % 2 != 0, (v / 2 + 4294967295) % 4294967296)

/-! ## Typed descriptor decoding (`read_typed_descriptor_bytes`,
`read_single_typed_integer`)

The two source functions are mutually recursive through the count-nibble-15 case.
`rtdb` is the stream-level decoder returning the decoded pair together with the
number of bytes consumed; the nibble-15 branch inlines
`read_single_typed_integer` (read one descriptor, require its count to be 1, read
one little-endian integer of the width given by its type; any other type is the
source's `panic!`). -/

/-- The integer read of `read_single_typed_integer` after its descriptor:
one little-endian integer of the width selected by the type tag, taken from
offset `k` of `l`; any non-integer type is the source's `panic!`.  Returns the
value and the total bytes consumed so far. -/
def readIntOfTyp (ityp k : Nat) (l : List Nat) : Option (Nat × Nat) :=
  match ityp, l.drop k with
  | 1, b0 :: _ => some (b0, k + 1)
  | 2, b0 :: b1 :: _ => some (b0 + 256 * b1, k + 2)
  | 3, b0 :: b1 :: b2 :: b3 :: _ =>
      some (b0 + 256 * b1 + 65536 * b2 + 16777216 * b3, k + 4)
  | _, _ => none

def rtdb : List Nat → Option ((Nat × Nat) × Nat)
  | [] => none
  | tdb :: rest =>
    if tdb / 16 = 15 then
      match rtdb rest with
      | none => none
      | some ((ityp, inn), k) =>
        if inn = 1 then
          (readIntOfTyp ityp k rest).map fun vk => ((tdb % 16, vk.1), 1 + vk.2)
        else none
    else some ((tdb % 16, tdb / 16), 1)

/-- Stream-level `read_single_typed_integer`: returns the decoded integer and the
number of bytes consumed. -/
def rsti (l : List Nat) : Option (Nat × Nat) :=
  match rtdb l with
  | none => none
  | some ((ityp, inn), k) => if inn = 1 then readIntOfTyp ityp k l else none

/-- A `std::io::Cursor<&[u8]>`: an owned byte buffer plus a read position. -/
structure Cursor where
  buf : List Nat
  pos : Nat
deriving DecidableEq

def read_typed_descriptor_bytes (c : Cursor) : Option ((Nat × Nat) × Cursor) :=
  (rtdb (c.buf.drop c.pos)).map fun tk => (tk.1, ⟨c.buf, c.pos + tk.2⟩)

def read_single_typed_integer (c : Cursor) : Option (Nat × Cursor) :=
  (rsti (c.buf.drop c.pos)).map fun vk => (vk.1, ⟨c.buf, c.pos + vk.2⟩)

/-! ## `NumberIter` (lazy number sequence) -/

structure NumberIter where
  buf : List Nat
  rpos : Nat
  typ : Nat
  len : Nat
  cur : Nat
deriving DecidableEq

/-- One step of `Iterator::next` for `NumberIter`.  The outer `Option` is the
panic (`unwrap` on a short read or the `panic!` arm for an unknown type); the
inner `Option` is the iterator's own `None`/`Some`. -/
def numberIterNext (it : NumberIter) : Option (Option (NumValue × NumberIter)) :=
  if it.len ≤ it.cur then some none
  else
    match it.typ with
    | 0 => some none
    | 1 =>
      match it.buf.drop it.rpos with
      | b0 :: _ =>
        some (some (NumValue.u8 b0, { it with rpos := it.rpos + 1, cur := it.cur + 1 }))
      | _ => none
    | 2 =>
      match it.buf.drop it.rpos with
      | b0 :: b1 :: _ =>
        some (some (NumValue.u16 (b0 + 256 * b1),
          { it with rpos := it.rpos + 2, cur := it.cur + 1 }))
      | _ => none
    | 3 =>
      match it.buf.drop it.rpos with
      | b0 :: b1 :: b2 :: b3 :: _ =>
        some (some (NumValue.u32 (b0 + 256 * b1 + 65536 * b2 + 16777216 * b3),
          { it with rpos := it.rpos + 4, cur := it.cur + 1 }))
      | _ => none
    | 5 =>
      match it.buf.drop it.rpos with
      | b0 :: b1 :: b2 :: b3 :: _ =>
        some (some (NumValue.f32 (b0 + 256 * b1 + 65536 * b2 + 16777216 * b3),
          { it with rpos := it.rpos + 4, cur := it.cur + 1 }))
      | _ => none
    | _ => none

/-! ## Record reading (`Record`, `Record::read`, `parse_site_fields`,
`parse_gt_fields`)

Cursor primitives for the fixed-width reads.  `byteorder` reads are exact:
fewer bytes than requested is an `UnexpectedEof`, which the source unwraps
(panic, modelled as `none`). -/

def creadU8 (c : Cursor) : Option (Nat × Cursor) :=
  match c.buf.drop c.pos with
  | b0 :: _ => some (b0, ⟨c.buf, c.pos + 1⟩)
  | _ => none

def creadU16 (c : Cursor) : Option (Nat × Cursor) :=
  match c.buf.drop c.pos with
  | b0 :: b1 :: _ => some (b0 + 256 * b1, ⟨c.buf, c.pos + 2⟩)
  | _ => none

def creadU32 (c : Cursor) : Option (Nat × Cursor) :=
  match c.buf.drop c.pos with
  | b0 :: b1 :: b2 :: b3 :: _ =>
    some (b0 + 256 * b1 + 65536 * b2 + 16777216 * b3, ⟨c.buf, c.pos + 4⟩)
  | _ => none

/-- One `(info_key / fmt_key, typ, n, byte_range)` table entry; a `Range<usize>`
is a `(start, end)` pair. -/
abbrev FieldEntry := Nat × Nat × Nat × (Nat × Nat)

/-- The decoded per-site fields of `parse_site_fields`, before they are written
back into the `Record`.  `chrom`, `pos`, `rlen` hold the raw 32-bit little-endian
pattern of the `i32`, `qual` the bit pattern of the `f32`. -/
structure SiteData where
  chrom : Nat
  pos : Nat
  rlen : Nat
  qual : Nat
  n_info : Nat
  n_allele : Nat
  n_sample : Nat
  n_fmt : Nat
  id : Nat × Nat
  alleles : List (Nat × Nat)
  filters : Nat × Nat × (Nat × Nat)
  info : List FieldEntry
deriving DecidableEq

/-- The allele loop of `parse_site_fields`: `n_allele` typed strings, each
recorded as a byte range and skipped with `seek`. -/
def readAlleles : Nat → Cursor → Option (List (Nat × Nat) × Cursor)
  | 0, c => some ([], c)
  | k + 1, c =>
    match read_typed_descriptor_bytes c with
    | none => none
    | some ((typ, n), c1) =>
      if typ ≠ 7 then none
      else
        match readAlleles k ⟨c1.buf, c1.pos + n⟩ with
        | none => none
        | some (rest, c2) => some ((c1.pos, c1.pos + n) :: rest, c2)

/-- The INFO loop of `parse_site_fields`.  NOTE: the source computes the range
end as `let e = width * n` (without adding the start `s`, unlike the FILTER and
FORMAT loops) and then seeks by `(e - s) as i64`, which lands the cursor at
absolute position `e`. -/
def readInfos : Nat → Cursor → Option (List FieldEntry × Cursor)
  | 0, c => some ([], c)
  | k + 1, c =>
    match read_single_typed_integer c with
    | none => none
    | some (info_key, c1) =>
      match read_typed_descriptor_bytes c1 with
      | none => none
      | some ((typ, n), c2) =>
        match bcf2_typ_width typ with
        | none => none
        | some width =>
          match readInfos k ⟨c2.buf, width * n⟩ with
          | none => none
          | some (rest, c3) => some ((info_key, typ, n, (c2.pos, width * n)) :: rest, c3)

/-- The FORMAT loop of `parse_gt_fields`: range end is
`s + width * n_sample * n`. -/
def readFmts (n_sample : Nat) : Nat → Cursor → Option (List FieldEntry × Cursor)
  | 0, c => some ([], c)
  | k + 1, c =>
    match read_single_typed_integer c with
    | none => none
    | some (fmt_key, c1) =>
      match read_typed_descriptor_bytes c1 with
      | none => none
      | some ((typ, n), c2) =>
        match bcf2_typ_width typ with
        | none => none
        | some width =>
          match readFmts n_sample k ⟨c2.buf, c2.pos + width * n_sample * n⟩ with
          | none => none
          | some (rest, c3) =>
            some ((fmt_key, typ, n, (c2.pos, c2.pos + width * n_sample * n)) :: rest, c3)

/-- The body of `parse_site_fields`, reading from a cursor over the shared
buffer: fixed scalars, the packed sample/format counts, the ID string range,
`n_allele` allele ranges, the FILTER array, and `n_info` INFO entries. -/
def site_scan (buf : List Nat) : Option SiteData :=
  (creadU32 ⟨buf, 0⟩).bind fun (chrom, c) =>
  (creadU32 c).bind fun (pos0, c) =>
  (creadU32 c).bind fun (rlen, c) =>
  (creadU32 c).bind fun (qual, c) =>
  (creadU16 c).bind fun (n_info, c) =>
  (creadU16 c).bind fun (n_allele, c) =>
  (creadU32 c).bind fun (combined, c) =>
  (read_typed_descriptor_bytes c).bind fun ((idtyp, idn), c) =>
  if idtyp ≠ 7 then none
  else
    (readAlleles n_allele ⟨c.buf, c.pos + idn⟩).bind fun (als, c1) =>
    (read_typed_descriptor_bytes c1).bind fun ((ftyp, fn), c2) =>
    (bcf2_typ_width ftyp).bind fun fwidth =>
    (readInfos n_info ⟨c2.buf, c2.pos + fwidth * fn⟩).bind fun (infos, _) =>
    some
      { chrom := chrom, pos := pos0, rlen := rlen, qual := qual,
        n_info := n_info, n_allele := n_allele,
        n_sample := combined % 16777216, n_fmt := combined / 16777216,
        id := (c.pos, c.pos + idn),
        alleles := als,
        filters := (ftyp, fn, (c2.pos, c2.pos + fwidth * fn)),
        info := infos }

/-- The `Record`: fixed scalars, the two owned buffers, and offset-based field
tables. -/
structure Rec where
  buf_site : List Nat
  buf_gt : List Nat
  chrom : Nat
  pos : Nat
  rlen : Nat
  qual : Nat
  n_info : Nat
  n_allele : Nat
  n_sample : Nat
  n_fmt : Nat
  id : Nat × Nat
  alleles : List (Nat × Nat)
  filters : Nat × Nat × (Nat × Nat)
  info : List FieldEntry
  gt : List FieldEntry
deriving DecidableEq

/-- Source `Record::default()`. -/
def rec0 : Rec :=
  { buf_site := [], buf_gt := [], chrom := 0, pos := 0, rlen := 0, qual := 0,
    n_info := 0, n_allele := 0, n_sample := 0, n_fmt := 0, id := (0, 0),
    alleles := [], filters := (0, 0, (0, 0)), info := [], gt := [] }

def parse_site_fields (r : Rec) : Option Rec :=
  (site_scan r.buf_site).map fun d =>
    { r with
      chrom := d.chrom, pos := d.pos, rlen := d.rlen, qual := d.qual,
      n_info := d.n_info, n_allele := d.n_allele, n_sample := d.n_sample,
      n_fmt := d.n_fmt, id := d.id, alleles := d.alleles, filters := d.filters,
      info := d.info }

def parse_gt_fields (r : Rec) : Option Rec :=
  (readFmts r.n_sample r.n_fmt ⟨r.buf_gt, 0⟩).map fun g => { r with gt := g.1 }

/-- Stream-level little-endian `u32` read used for the two record length
prefixes; fewer than 4 remaining bytes is an `UnexpectedEof` error. -/
def readU32leS : List Nat → Option (Nat × List Nat)
  | b0 :: b1 :: b2 :: b3 :: rest =>
    some (b0 + 256 * b1 + 65536 * b2 + 16777216 * b3, rest)
  | _ => none

def readTwoU32 (l : List Nat) : Option (Nat × Nat × List Nat) :=
  match readU32leS l with
  | none => none
  | some (a, l1) =>
    match readU32leS l1 with
    | none => none
    | some (b, l2) => some (a, b, l2)

/-- Outcome of `Record::read`: `errReturn` is the `Err` returned through `?`
(the caller treats it as the end-of-records signal), `fatal` is a panic from an
`unwrap`/`assert`, `ok` carries the updated record and the unconsumed stream. -/
inductive ReadOutcome where
  | errReturn : ReadOutcome
  | fatal : ReadOutcome
  | ok : Rec → List Nat → ReadOutcome
deriving DecidableEq

/-- Source `Record::read`: read the two length prefixes with `?` (an error, including
end-of-stream, is returned), resize the two buffers, fill them with
`read_exact(..).unwrap()` (a short body is a panic), then parse both sections
(panics propagate). -/
def record_read (r : Rec) (input : List Nat) : ReadOutcome :=
  match readU32leS input with
  | none => ReadOutcome.errReturn
  | some (l_shared, in1) =>
    match readU32leS in1 with
    | none => ReadOutcome.errReturn
    | some (l_indv, in2) =>
      if l_shared ≤ in2.length then
        if l_indv ≤ (in2.drop l_shared).length then
          match parse_site_fields
              { r with buf_site := in2.take l_shared,
                       buf_gt := (in2.drop l_shared).take l_indv } with
          | none => ReadOutcome.fatal
          | some r1 =>
            match parse_gt_fields r1 with
            | none => ReadOutcome.fatal
            | some r2 => ReadOutcome.ok r2 ((in2.drop l_shared).drop l_indv)
        else ReadOutcome.fatal
      else ReadOutcome.fatal

/-! ## Header parsing (`Header::from_string`)

The header text is a `List Char`.  Helpers model the `str` operations used by
the source; whitespace is the ASCII subset relevant to header text. -/

def isWS (c : Char) : Bool := c = ' ' || c = '\t' || c = '\n' || c = '\r'

def trimL (l : List Char) : List Char :=
  ((l.dropWhile isWS).reverse.dropWhile isWS).reverse

def dropTrailingNul (l : List Char) : List Char :=
  (l.reverse.dropWhile (fun c => c = '\x00')).reverse

/-- Rust `str::split` on a one-character pattern; always returns at least one piece. -/
def splitListOn (sep : Char) : List Char → List (List Char)
  | [] => [[]]
  | c :: cs =>
    if c = sep then [] :: splitListOn sep cs
    else
      match splitListOn sep cs with
      | t :: ts => (c :: t) :: ts
      | [] => [[c]]

/-- Rust `str::strip_prefix`: `some` of the remainder when `pre` is a prefix. -/
def dropPre : List Char → List Char → Option (List Char)
  | [], l => some l
  | _ :: _, [] => none
  | p :: ps, c :: cs => if c = p then dropPre ps cs else none

def startsWithL (pre l : List Char) : Bool := (dropPre pre l).isSome

/-- Rust `str::find`: index of the first occurrence of `c`. -/
def findIdx (c : Char) : List Char → Option Nat
  | [] => none
  | x :: xs => if x = c then some 0 else (findIdx c xs).map (· + 1)

/-- Rust `str::rfind`: index of the last occurrence of `c`. -/
def rfindIdx (c : Char) (l : List Char) : Option Nat :=
  match findIdx c l.reverse with
  | none => none
  | some i => some (l.length - 1 - i)

/-- A `HashMap<String, String>` as an association list: insertion conses, lookup
takes the first (i.e. most recent) match. -/
abbrev Dict := List (List Char × List Char)

def dlookup (m : Dict) (k : List Char) : Option (List Char) :=
  match m with
  | [] => none
  | (k1, v) :: rest => if k1 = k then some v else dlookup rest k

/-- Quote-aware split worker: splits on `=` only outside double quotes. -/
def splitQAux : List Char → Bool → List Char → List (List Char)
  | [], _, acc => [acc.reverse]
  | c :: cs, inq, acc =>
    if c = '"' then splitQAux cs (!inq) (c :: acc)
    else if c = '=' && !inq then acc.reverse :: splitQAux cs inq []
    else splitQAux cs inq (c :: acc)

/-- Model of `splitty::split_unquoted_char(s, '=').unwrap_quotes(true)`: split on `=`
outside double quotes, then strip the quote characters from each token. -/
def splitUnquotedEq (l : List Char) : List (List Char) :=
  (splitQAux l false []).map fun t => t.filter fun c => ¬(c = '"')

/-- The `key=value` loop over the bracket body: each comma-piece is trimmed and
split; a piece without a second token is the source's `it.next().unwrap()`
panic.  Insertions cons, so a repeated key is overwritten. -/
def parseKVs : Dict → List (List Char) → Option Dict
  | m, [] => some m
  | m, kv :: rest =>
    match splitUnquotedEq (trimL kv) with
    | k :: v :: _ => parseKVs ((k, v) :: m) rest
    | _ => none

/-- The `match it.next() { Some(x) if x.starts_with("<") => true, _ => false }`
validity test, applied to the line with `##` already stripped. -/
def valid_dict_check (stripped : List Char) : Bool :=
  match (splitListOn '=' stripped).drop 1 with
  | x :: _ => startsWithL ("<".toList) x
  | [] => false

/-- Parser state: the two dictionary sequences (`Vec::push` appends at the end)
and the sample list. -/
structure HState where
  dict_strings : List Dict
  dict_contigs : List Dict
  samples : List (List Char)
deriving DecidableEq

/-- The synthesized default `FILTER`/`PASS` entry (HashMap inserts cons). -/
def defaultPass : Dict :=
  [("Description".toList, "\"All filters passed\"".toList),
   ("ID".toList, "PASS".toList),
   ("Dictionary".toList, "FILTER".toList)]

def initState : HState := ⟨[defaultPass], [], []⟩

/-- One iteration of the line loop of `Header::from_string`.  `none` is a panic
(`unwrap` on a line without `##`, on a missing `>`, on a pair without `=`, or
`m["ID"]` on a FILTER line without an ID). -/
def processLine (st : HState) (line : List Char) : Option HState :=
  if startsWithL ("#CHROM".toList) line then
    some { st with samples := st.samples ++ (splitListOn '\t' line).drop 8 }
  else if (trimL line).length = 0 then some st
  else
    match dropPre ("##".toList) line with
    | none => none
    | some stripped =>
      if valid_dict_check stripped then
        match findIdx '<' line with
        | none => none
        | some l =>
          match rfindIdx '>' (line.drop (l + 1)) with
          | none => none
          | some r =>
            match parseKVs [] (splitListOn ',' ((line.drop (l + 1)).take r)) with
            | none => none
            | some m =>
              if (splitListOn '=' stripped).headD [] = "contig".toList then
                some { st with dict_contigs := st.dict_contigs ++ [m] }
              else if (splitListOn '=' stripped).headD [] = "FILTER".toList then
                match dlookup m ("ID".toList) with
                | none => none
                | some v =>
                  if v = "PASS".toList then some st
                  else
                    some { st with dict_strings := st.dict_strings ++
                      [("Dictionary".toList, (splitListOn '=' stripped).headD []) :: m] }
              else
                some { st with dict_strings := st.dict_strings ++
                  [("Dictionary".toList, (splitListOn '=' stripped).headD []) :: m] }
      else some st

def processLines : HState → List (List Char) → Option HState
  | st, [] => some st
  | st, l :: ls =>
    match processLine st l with
    | none => none
    | some st1 => processLines st1 ls

/-- The final `fmt_gt_idx` scan: last index whose entry has
`Dictionary == "FORMAT"` and `ID == "GT"`; the map indexing panics when the
keys are absent (short-circuit: `ID` is only looked up on FORMAT entries). -/
def computeGtIdx : Nat → Nat → List Dict → Option Nat
  | _, acc, [] => some acc
  | idx, acc, m :: rest =>
    match dlookup m ("Dictionary".toList) with
    | none => none
    | some d =>
      if d = "FORMAT".toList then
        match dlookup m ("ID".toList) with
        | none => none
        | some i => computeGtIdx (idx + 1) (if i = "GT".toList then idx else acc) rest
      else computeGtIdx (idx + 1) acc rest

structure Header where
  dict_strings : List Dict
  dict_contigs : List Dict
  samples : List (List Char)
  fmt_gt_idx : Nat
deriving DecidableEq

/-- Source `Header::from_string`: trim trailing NULs and whitespace, split into lines,
process each line starting from the synthesized default FILTER/PASS entry, then
scan for the FORMAT/GT index. -/
def from_string (text : String) : Option Header :=
  match processLines initState (splitListOn '\n' (trimL (dropTrailingNul text.toList))) with
  | none => none
  | some st =>
    match computeGtIdx 0 0 st.dict_strings with
    | none => none
    | some idx => some ⟨st.dict_strings, st.dict_contigs, st.samples, idx⟩

/-- An entry that would violate the unique-PASS invariant: dictionary tag
`FILTER` and `ID` equal to `PASS`. -/
def isPassB (m : Dict) : Bool :=
  decide (dlookup m ("Dictionary".toList) = some ("FILTER".toList)) &&
  decide (dlookup m ("ID".toList) = some ("PASS".toList))

/-! ## Concrete inputs used by the claim theorems and witnesses -/

/-- A record stream exposing the INFO-range slip: `l_shared = 31`, `l_indv = 0`;
the site section has `n_info = 1`, `n_allele = 0`, empty ID, a type-0 FILTER
array, and one INFO entry (key 3) whose descriptor `0xF1 0x11 0x28` declares
type 1 with count 40 starting at offset 31. -/
def c2Input : List Nat :=
  [31] ++ List.replicate 7 0 ++ List.replicate 8 0 ++ [1] ++ List.replicate 7 0 ++
  [1] ++ List.replicate 7 0 ++ [7, 0, 17, 3, 241, 17, 40]

/-- A minimal well-formed record stream: `l_shared = 26`, `l_indv = 0`, all
counts zero, empty ID, type-0 FILTER array. -/
def minInput : List Nat :=
  [26, 0, 0, 0, 0, 0, 0, 0] ++ (List.replicate 24 0 ++ [7, 0])

/-- The record produced by reading `minInput` into a default record. -/
def rMin : Rec :=
  { buf_site := List.replicate 24 0 ++ [7, 0], buf_gt := [],
    chrom := 0, pos := 0, rlen := 0, qual := 0,
    n_info := 0, n_allele := 0, n_sample := 0, n_fmt := 0,
    id := (25, 25), alleles := [], filters := (0, 0, (26, 26)), info := [], gt := [] }

def outInfo : ReadOutcome → Option (List FieldEntry)
  | ReadOutcome.ok r _ => some r.info
  | _ => none

def outSiteLen : ReadOutcome → Option Nat
  | ReadOutcome.ok r _ => some r.buf_site.length
  | _ => none

/-- A header text with an explicit FILTER/PASS line (to be deduplicated), a
FORMAT/GT line and a `#CHROM` line. -/
def c6Text : String :=
  "##FILTER=<ID=PASS>\n##FORMAT=<ID=GT>\n#CHROM\tP\tI\tR\tA\tQ\tF\tN\tT\tS1"

/-- Invariant carried through the line loop: the synthesized default PASS entry
sits at position 0 and no later entry is a FILTER/PASS entry. -/
def stInv (st : HState) : Prop :=
  ∃ rest, st.dict_strings = defaultPass :: rest ∧ rest.countP isPassB = 0


/-! ## Theorems -/

/-- C1: the width table in the source maps type tags 0,1,2,7 as the spec says,
fails on other tags, but returns 3 (not 4) for tags 3 and 5 — contradicting the
element reader in the same file, which consumes 4 bytes per element of type 3
(`read_u32`) and type 5 (`read_f32`). -/
theorem bcf2_typ_width_bug :
    bcf2_typ_width 0 = some 0 ∧ bcf2_typ_width 1 = some 1 ∧
    bcf2_typ_width 2 = some 2 ∧ bcf2_typ_width 7 = some 1 ∧
    bcf2_typ_width 4 = none ∧ bcf2_typ_width 6 = none ∧
    bcf2_typ_width 3 = some 3 ∧ bcf2_typ_width 5 = some 3 ∧
    numberIterNext ⟨[1, 2, 3, 4], 0, 3, 1, 0⟩ =
      some (some (NumValue.u32 67305985, ⟨[1, 2, 3, 4], 4, 3, 1, 1⟩)) ∧
    numberIterNext ⟨[1, 2, 3, 4], 0, 5, 1, 0⟩ =
      some (some (NumValue.f32 67305985, ⟨[1, 2, 3, 4], 4, 5, 1, 1⟩)) := by
  decide

/-- C3: the float sentinel classifiers use the value cast `as u32`, not the bit
pattern: the quiet NaN with bits 0x7FC00000 (the BCF2 float-missing sentinel)
casts to 0 and is not classified as missing, while the ordinary float
2143289344.0 (bits 0x4EFF8000) is; likewise the end-of-vector and reserved
NaN patterns are not recognised. -/
theorem f32_sentinel_cast_bug :
    f32_is_missing 0x7FC00000 = false ∧
    f32_is_end_of_vector 0x7FC00001 = false ∧
    f32_is_reserved_value 0x7FC00003 = false ∧
    f32_is_missing 0x4EFF8000 = true ∧
    f32_as_u32 0x7FC00000 = 0 := by
  decide

/-- C7: for each integer width the missing, end-of-vector and reserved
classifiers hold exactly at the spec's raw bit patterns, and a value is
classified by at least one of the three exactly when it lies in the reserved
range — so every ordinary value classifies as none of them. -/
theorem int_sentinel_classification (v : Nat) :
    (u8_is_missing v = true ↔ v = 0x80) ∧
    (u8_is_end_of_vector v = true ↔ v = 0x81) ∧
    (u8_is_reserved_value v = true ↔ 0x80 ≤ v ∧ v ≤ 0x87) ∧
    ((u8_is_missing v || u8_is_end_of_vector v || u8_is_reserved_value v) = true ↔
      0x80 ≤ v ∧ v ≤ 0x87) ∧
    (u16_is_missing v = true ↔ v = 0x8000) ∧
    (u16_is_end_of_vector v = true ↔ v = 0x8001) ∧
    (u16_is_reserved_value v = true ↔ 0x8000 ≤ v ∧ v ≤ 0x8007) ∧
    ((u16_is_missing v || u16_is_end_of_vector v || u16_is_reserved_value v) = true ↔
      0x8000 ≤ v ∧ v ≤ 0x8007) ∧
    (u32_is_missing v = true ↔ v = 0x80000000) ∧
    (u32_is_end_of_vector v = true ↔ v = 0x80000001) ∧
    (u32_is_reserved_value v = true ↔ 0x80000000 ≤ v ∧ v ≤ 0x80000007) ∧
    ((u32_is_missing v || u32_is_end_of_vector v || u32_is_reserved_value v) = true ↔
      0x80000000 ≤ v ∧ v ≤ 0x80000007) := by
  simp only [u8_is_missing, u8_is_end_of_vector, u8_is_reserved_value,
    u16_is_missing, u16_is_end_of_vector, u16_is_reserved_value,
    u32_is_missing, u32_is_end_of_vector, u32_is_reserved_value,
    Bool.or_eq_true, Bool.and_eq_true, beq_iff_eq, decide_eq_true_eq,
    true_and, and_true]
  omega

/-- C10: any raw genotype value whose integer view is 0 or 1 makes
`(int_val >> 1) - 1` underflow; with wrapping `u32` arithmetic the returned
allele index is `2^32 - 1`.  No precondition on `gt_val` excludes these
values. -/
theorem gt_val_underflow (nv : NumValue) (v : Nat)
    (h1 : int_val nv = some v) (h2 : v < 2) :
    gt_val nv = (false, false, decide (v = 1), 4294967295) := by
  have hv : v = 0 ∨ v = 1 := by omega
  rcases hv with rfl | rfl <;> simp [gt_val, h1]

theorem gt_val_underflow_witness :
    gt_val (NumValue.u8 0) = (false, false, decide ((0 : Nat) = 1), 4294967295) :=
  gt_val_underflow (NumValue.u8 0) 0 (by decide) (by decide)

/-- C4 counterexample: the encoded form of allele `2^30 - 1` with phase bit 0 is
exactly the u32 missing sentinel 0x80000000, so decoding it yields the
no-ploidy tuple, not `(false, false, false, 2^30 - 1)` as the claim requires
for every allele in `[0, 2^30)`. -/
theorem gt_val_sentinel_collision :
    (1073741823 + 1) * 2 + 0 = 0x80000000 ∧
    gt_val (NumValue.u32 0x80000000) = (true, false, false, 4294967295) ∧
    (true, false, false, (4294967295 : Nat)) ≠
      (false, false, false, (1073741823 : Nat)) := by
  decide

/-- C4 (amended): the genotype law holds for every allele `a < 2^30` and phase
bit `p` whose encoded value `((a+1) << 1) | p` is not the u32 missing sentinel;
the missing sentinel of each integer width decodes to the no-ploidy tuple, and
the all-ones raw value decodes to the dot tuple. -/
theorem gt_val_encoding (a p : Nat) (ha : a < 1073741824) (hp : p < 2)
    (hne : (a + 1) * 2 + p ≠ 2147483648) :
    gt_val (NumValue.u32 ((a + 1) * 2 + p)) = (false, false, decide (p = 1), a) ∧
    gt_val (NumValue.u8 0x80) = (true, false, false, 4294967295) ∧
    gt_val (NumValue.u16 0x8000) = (true, false, false, 4294967295) ∧
    gt_val (NumValue.u32 0x80000000) = (true, false, false, 4294967295) ∧
    gt_val (NumValue.u32 4294967295) = (false, true, false, 4294967295) := by
  refine ⟨?_, by decide, by decide, by decide, by decide⟩
  have hm : u32_is_missing ((a + 1) * 2 + p) = false := by
    simp only [u32_is_missing, beq_eq_false_iff_ne, ne_eq]
    omega
  have hmod : ((a + 1) * 2 + p + 1) % 4294967296 = (a + 1) * 2 + p + 1 :=
    Nat.mod_eq_of_lt (by omega)
  simp only [gt_val, int_val, hm, Bool.false_eq_true, if_false, hmod]
  rw [if_neg (by omega)]
  have hdiv : ((a + 1) * 2 + p) / 2 = a + 1 := by omega
  have hmod2 : (a + 1 + 4294967295) % 4294967296 = a := by omega
  rw [hdiv, hmod2]
  have hodd : (((a + 1) * 2 + p) % 2 != 0) = decide (p = 1) := by
    rcases (by omega : p = 0 ∨ p = 1) with rfl | rfl
    · simp [Nat.mul_mod_left, Nat.add_mod]
    · simp [Nat.add_mod, Nat.mul_mod_left]
  rw [hodd]

theorem gt_val_encoding_witness :
    gt_val (NumValue.u32 3) = (false, false, decide ((1 : Nat) = 1), 0) ∧
    gt_val (NumValue.u32 4294967295) = (false, true, false, 4294967295) :=
  ⟨(gt_val_encoding 0 1 (by decide) (by decide) (by decide)).1,
   (gt_val_encoding 0 1 (by decide) (by decide) (by decide)).2.2.2.2⟩

/-- C2: a successfully read record whose single INFO entry (type 1, count 40)
starts at offset 31 stores the byte range (31, 40): the range end is
`width * count` instead of `start + width * count`, so it is not contained in
the 31-byte site buffer and its length is not `width * count`. -/
theorem info_range_bug :
    outInfo (record_read rec0 c2Input) = some [(3, 1, 40, (31, 40))] ∧
    outSiteLen (record_read rec0 c2Input) = some 31 ∧
    ¬(40 ≤ 31 ∧ 40 - 31 = 1 * 40) := by
  decide

/-- Stream-level form of the count-nibble-15 case: the decoder reads one
single-element typed integer immediately after the descriptor byte and uses it
as the count. -/
theorem rtdb_nib15 (t2 : Nat) (ht2 : t2 < 16) (rest : List Nat) :
    rtdb ((15 * 16 + t2) :: rest) = (rsti rest).map fun vk => ((t2, vk.1), 1 + vk.2) := by
  have hdiv : (15 * 16 + t2) / 16 = 15 := by omega
  have hmod : (15 * 16 + t2) % 16 = t2 := by omega
  rw [rtdb, if_pos hdiv, rsti]
  cases hr : rtdb rest with
  | none => simp
  | some tk =>
    obtain ⟨⟨ityp, inn⟩, k⟩ := tk
    by_cases hinn : inn = 1
    · simp [hinn, hmod]
    · simp [hinn]

/-- C8: decoding the descriptor byte `count << 4 | type` for any type in
{1,2,3,5,7} and count in [0,14] yields exactly that pair and consumes one byte;
when the count nibble is 15, the decoder instead obtains the real count by
reading one single-element typed integer immediately following. -/
theorem descriptor_decode (t c : Nat) (rest : List Nat)
    (ht : t ∈ [1, 2, 3, 5, 7]) (hc : c ≤ 14) :
    read_typed_descriptor_bytes ⟨(c * 16 + t) :: rest, 0⟩ =
      some ((t, c), ⟨(c * 16 + t) :: rest, 1⟩) ∧
    (∀ t2 : Nat, t2 < 16 →
      read_typed_descriptor_bytes ⟨(15 * 16 + t2) :: rest, 0⟩ =
        (read_single_typed_integer ⟨(15 * 16 + t2) :: rest, 1⟩).map
          fun vk => ((t2, vk.1), vk.2)) := by
  have ht16 : t < 16 := by fin_cases ht <;> decide
  constructor
  · have hdiv : (c * 16 + t) / 16 = c := by omega
    have hmod : (c * 16 + t) % 16 = t := by omega
    simp only [read_typed_descriptor_bytes, List.drop_zero]
    rw [rtdb, if_neg (by omega), hdiv, hmod]
    simp
  · intro t2 ht2
    simp only [read_typed_descriptor_bytes, read_single_typed_integer,
      List.drop_zero, List.drop_succ_cons, List.drop_zero]
    rw [rtdb_nib15 t2 ht2 rest]
    cases hr : rsti rest with
    | none => simp
    | some vk => simp

theorem descriptor_decode_witness :
    read_typed_descriptor_bytes ⟨[231], 0⟩ = some ((7, 14), ⟨[231], 1⟩) ∧
    read_typed_descriptor_bytes ⟨[241, 17, 5], 0⟩ =
      (read_single_typed_integer ⟨[241, 17, 5], 1⟩).map
        fun vk => ((1, vk.1), vk.2) :=
  ⟨(descriptor_decode 7 14 [] (by decide) (by decide)).1,
   (descriptor_decode 1 0 [17, 5] (by decide) (by decide)).2 1 (by decide)⟩

theorem readU32leS_none_iff (l : List Nat) : readU32leS l = none ↔ l.length < 4 := by
  rcases l with _ | ⟨a, _ | ⟨b, _ | ⟨c, _ | ⟨d, t⟩⟩⟩⟩ <;> simp [readU32leS] <;> try omega

theorem readU32leS_chop (l : List Nat) (v : Nat) (r : List Nat)
    (h : readU32leS l = some (v, r)) : l.length = r.length + 4 := by
  rcases l with _ | ⟨a, _ | ⟨b, _ | ⟨c, _ | ⟨d, t⟩⟩⟩⟩ <;> simp [readU32leS] at h
  obtain ⟨-, rfl⟩ := h
  simp

theorem parse_site_fields_bufs (r r1 : Rec) (h : parse_site_fields r = some r1) :
    r1.buf_site = r.buf_site ∧ r1.buf_gt = r.buf_gt := by
  simp only [parse_site_fields, Option.map_eq_some'] at h
  obtain ⟨d, -, rfl⟩ := h
  exact ⟨rfl, rfl⟩

theorem parse_gt_fields_bufs (r r1 : Rec) (h : parse_gt_fields r = some r1) :
    r1.buf_site = r.buf_site ∧ r1.buf_gt = r.buf_gt := by
  simp only [parse_gt_fields, Option.map_eq_some'] at h
  obtain ⟨g, -, rfl⟩ := h
  exact ⟨rfl, rfl⟩

/-- C5 (amended): `Record::read` returns the error result — the caller's
end-of-records signal — exactly when one of the two length prefixes cannot be
fully read, so end-of-stream at the length-prefix boundary and a truncated
length field are not distinguished; a short read of either section body is a
fatal panic; and on success the two owned buffers hold exactly shared-length
bytes followed by individual-length bytes of the stream. -/
theorem record_read_spec (r0 : Rec) (input : List Nat) :
    (record_read r0 input = ReadOutcome.errReturn ↔ input.length < 8) ∧
    (∀ lsh lind body, readTwoU32 input = some (lsh, lind, body) →
      body.length < lsh + lind → record_read r0 input = ReadOutcome.fatal) ∧
    (∀ r rest, record_read r0 input = ReadOutcome.ok r rest →
      ∃ lsh lind body, readTwoU32 input = some (lsh, lind, body) ∧
        r.buf_site = body.take lsh ∧ r.buf_gt = (body.drop lsh).take lind ∧
        rest = (body.drop lsh).drop lind ∧
        r.buf_site.length = lsh ∧ r.buf_gt.length = lind) := by
  rcases h1 : readU32leS input with _ | ⟨lsh, in1⟩
  · have hlen : input.length < 4 := (readU32leS_none_iff input).mp h1
    refine ⟨?_, ?_, ?_⟩
    · simp only [record_read, h1]
      constructor
      · intro _; omega
      · intro _; trivial
    · intro a b c hh
      simp [readTwoU32, h1] at hh
    · intro r rest hh
      simp only [record_read, h1] at hh
      cases hh
  · have e1 := readU32leS_chop input lsh in1 h1
    rcases h2 : readU32leS in1 with _ | ⟨lind, in2⟩
    · have hlen : in1.length < 4 := (readU32leS_none_iff in1).mp h2
      refine ⟨?_, ?_, ?_⟩
      · simp only [record_read, h1, h2]
        constructor
        · intro _; omega
        · intro _; trivial
      · intro a b c hh
        simp [readTwoU32, h1, h2] at hh
      · intro r rest hh
        simp only [record_read, h1, h2] at hh
        cases hh
    · have e2 := readU32leS_chop in1 lind in2 h2
      refine ⟨?_, ?_, ?_⟩
      · constructor
        · intro hh
          exfalso
          simp only [record_read, h1, h2] at hh
          split at hh
          · split at hh
            · split at hh
              · cases hh
              · split at hh
                · cases hh
                · cases hh
            · cases hh
          · cases hh
        · intro hlen8
          omega
      · intro a b c hh hshort
        simp only [readTwoU32, h1, h2, Option.some.injEq, Prod.mk.injEq] at hh
        obtain ⟨rfl, rfl, rfl⟩ := hh
        simp only [record_read, h1, h2]
        have hd : (in2.drop lsh).length = in2.length - lsh := by simp
        by_cases ha : lsh ≤ in2.length
        · rw [if_pos ha, if_neg (by omega)]
        · rw [if_neg ha]
      · intro r rest hh
        simp only [record_read, h1, h2] at hh
        split at hh
        · rename_i ha
          split at hh
          · rename_i hb
            split at hh
            · cases hh
            · rename_i r1 hsite
              split at hh
              · cases hh
              · rename_i r2 hgt
                obtain ⟨rfl, rfl⟩ : r2 = r ∧ (in2.drop lsh).drop lind = rest := by
                  cases hh; exact ⟨rfl, rfl⟩
                obtain ⟨hs1, hg1⟩ := parse_site_fields_bufs _ _ hsite
                obtain ⟨hs2, hg2⟩ := parse_gt_fields_bufs _ _ hgt
                have hd2 : (in2.drop lsh).length = in2.length - lsh := by simp
                refine ⟨lsh, lind, in2, by simp [readTwoU32, h1, h2], ?_, ?_, rfl, ?_, ?_⟩
                · rw [hs2, hs1]
                · rw [hg2, hg1]
                · rw [hs2, hs1]
                  simp only [List.length_take]
                  omega
                · rw [hg2, hg1]
                  simp only [List.length_take, List.length_drop]
                  omega
          · cases hh
        · cases hh

theorem record_read_spec_witness :
    record_read rec0 [] = ReadOutcome.errReturn ∧
    record_read rec0 [1, 0, 0, 0, 0, 0, 0, 0] = ReadOutcome.fatal ∧
    (∃ lsh lind body, readTwoU32 minInput = some (lsh, lind, body) ∧
      rMin.buf_site = body.take lsh ∧ rMin.buf_gt = (body.drop lsh).take lind ∧
      ([] : List Nat) = (body.drop lsh).drop lind ∧
      rMin.buf_site.length = lsh ∧ rMin.buf_gt.length = lind) :=
  ⟨(record_read_spec rec0 []).1.mpr (by decide),
   (record_read_spec rec0 [1, 0, 0, 0, 0, 0, 0, 0]).2.1 1 0 [] (by decide) (by decide),
   (record_read_spec rec0 minInput).2.2 rMin [] (by decide)⟩

/-- C5 counterexample: a stream truncated one byte into the first length prefix
is not end-of-stream at the length-prefix boundary, yet `Record::read` returns
the very same error outcome as at the boundary — not a distinguishable fatal
corruption error. -/
theorem record_read_truncation_signal :
    record_read rec0 [0] = ReadOutcome.errReturn ∧
    record_read rec0 [] = ReadOutcome.errReturn ∧
    record_read rec0 [0] ≠ ReadOutcome.fatal := by
  decide

theorem mem_dropWhile_of_mem (p : Char → Bool) (c : Char) (l : List Char)
    (hc : c ∈ l) (hpc : p c = false) : c ∈ l.dropWhile p := by
  induction l with
  | nil => cases hc
  | cons a t ih =>
    rw [List.dropWhile_cons]
    by_cases hpa : p a = true
    · rw [if_pos hpa]
      rcases List.mem_cons.mp hc with rfl | hmem
      · rw [hpc] at hpa; cases hpa
      · exact ih hmem
    · rw [if_neg hpa]
      exact hc

theorem trimL_ne_nil (l : List Char) (c : Char) (hc : c ∈ l)
    (hw : isWS c = false) : trimL l ≠ [] := by
  unfold trimL
  intro hz
  rw [List.reverse_eq_nil_iff] at hz
  have hmem : c ∈ (l.dropWhile isWS).reverse.dropWhile isWS :=
    mem_dropWhile_of_mem isWS c _
      (List.mem_reverse.mpr (mem_dropWhile_of_mem isWS c l hc hw)) hw
  rw [hz] at hmem
  cases hmem

theorem dropPre_hash2 (line rest : List Char)
    (h : dropPre ("##".toList) line = some rest) : line = '#' :: '#' :: rest := by
  rcases line with _ | ⟨a, _ | ⟨b, t⟩⟩
  · simp [dropPre] at h
  · by_cases ha : a = '#' <;> simp [dropPre, ha] at h
  · by_cases ha : a = '#'
    · by_cases hb : b = '#'
      · subst ha; subst hb
        simp [dropPre] at h
        rw [h]
      · simp [dropPre, ha, hb] at h
    · simp [dropPre, ha] at h

theorem pushed_entry_not_pass (dictName : List Char) (m : Dict)
    (hc : dictName ≠ "FILTER".toList ∨
      ∃ v, dlookup m ("ID".toList) = some v ∧ v ≠ "PASS".toList) :
    isPassB (("Dictionary".toList, dictName) :: m) = false := by
  have h1 : dlookup (("Dictionary".toList, dictName) :: m) ("Dictionary".toList) =
      some dictName := by
    rw [dlookup, if_pos rfl]
  have h2 : dlookup (("Dictionary".toList, dictName) :: m) ("ID".toList) =
      dlookup m ("ID".toList) := by
    rw [dlookup, if_neg (by decide)]
  unfold isPassB
  rw [h1, h2]
  rcases hc with hc | ⟨v, hv, hne⟩
  · rw [decide_eq_false (by simpa using hc), Bool.false_and]
  · rw [hv, show decide (some v = some ("PASS".toList)) = false from
      decide_eq_false (by simpa using hne), Bool.and_false]

theorem stInv_push (st : HState) (e : Dict) (hinv : stInv st)
    (he : isPassB e = false) :
    stInv { st with dict_strings := st.dict_strings ++ [e] } := by
  obtain ⟨rest, hds, hcnt⟩ := hinv
  refine ⟨rest ++ [e], ?_, ?_⟩
  · simp [hds]
  · rw [List.countP_append, hcnt, List.countP_cons, List.countP_nil, he]
    simp

theorem processLine_inv (st st1 : HState) (line : List Char)
    (hinv : stInv st) (h : processLine st line = some st1) : stInv st1 := by
  unfold processLine at h
  split at h
  · obtain rfl := Option.some.inj h
    exact hinv
  · split at h
    · obtain rfl := Option.some.inj h
      exact hinv
    · split at h
      · cases h
      · rename_i stripped hstrip
        split at h
        · split at h
          · cases h
          · rename_i l hfind
            split at h
            · cases h
            · rename_i r hrfind
              split at h
              · cases h
              · rename_i m hkvs
                split at h
                · obtain rfl := Option.some.inj h
                  exact hinv
                · split at h
                  · rename_i hnc hfilter
                    split at h
                    · cases h
                    · rename_i v hv
                      split at h
                      · obtain rfl := Option.some.inj h
                        exact hinv
                      · rename_i hvne
                        obtain rfl := Option.some.inj h
                        exact stInv_push st _ hinv
                          (pushed_entry_not_pass _ m (Or.inr ⟨v, hv, hvne⟩))
                  · rename_i hnc hnfilter
                    obtain rfl := Option.some.inj h
                    exact stInv_push st _ hinv
                      (pushed_entry_not_pass _ m (Or.inl hnfilter))
        · obtain rfl := Option.some.inj h
          exact hinv

theorem processLines_inv (ls : List (List Char)) (st st1 : HState)
    (hinv : stInv st) (h : processLines st ls = some st1) : stInv st1 := by
  induction ls generalizing st with
  | nil =>
    obtain rfl := Option.some.inj h
    exact hinv
  | cons l ls ih =>
    unfold processLines at h
    split at h
    · cases h
    · rename_i st2 hst2
      exact ih st2 (processLine_inv st st2 l hinv hst2) h

/-- C6: for every header text that parses, the dictionary sequence holds
exactly one FILTER entry with ID PASS and it is the synthesized default at
position 0; an explicit FILTER/PASS line is deduplicated against it rather
than appended. -/
theorem header_pass_unique (text : String) (h : Header)
    (hh : from_string text = some h) :
    h.dict_strings.countP isPassB = 1 ∧
    h.dict_strings.head? = some defaultPass := by
  unfold from_string at hh
  split at hh
  · cases hh
  · rename_i st hst
    split at hh
    · cases hh
    · rename_i idx hidx
      obtain rfl := Option.some.inj hh
      obtain ⟨rest, hds, hcnt⟩ :=
        processLines_inv _ initState st ⟨[], rfl, rfl⟩ hst
      constructor
      · show st.dict_strings.countP isPassB = 1
        rw [hds, List.countP_cons, hcnt,
          show isPassB defaultPass = true from by decide]
        simp
      · show st.dict_strings.head? = some defaultPass
        rw [hds]
        rfl

theorem header_pass_unique_witness :
    (from_string c6Text).map
      (fun h => (h.dict_strings.countP isPassB, h.dict_strings.head?)) =
      some (1, some defaultPass) := by
  rcases hh : from_string c6Text with _ | h
  · exact absurd hh (by decide)
  · have hc := header_pass_unique c6Text h hh
    rw [Option.map_some', hc.1, hc.2]

/-- C9 counterexample: a header line that does not start with `##` (here the
single line "abc" — not a `#CHROM` line, not blank, not of the bracket shape)
makes parsing fail with a panic instead of being ignored, and so does a
bracket line whose `<` is never closed. -/
theorem header_line_fatal_cex :
    from_string "abc" = none ∧ from_string "##X=<ID=1" = none := by
  decide

/-- C9 (amended): among header lines that are neither `#CHROM` lines nor
blank, the parser's behaviour splits by class: a line starting with `##` whose
part after the first `=` is absent or does not begin with `<` is ignored
(processing succeeds and the parser state is unchanged); a line lacking the
`##` prefix makes parsing fail; a line passing the `<` test whose first `<` is
never followed by a `>` makes parsing fail; and a bracket body containing a
comma-piece without an unquoted `=` makes parsing fail.  (A shape-matching
line may also leave the state unchanged — an explicit FILTER/PASS line does —
so being ignored does not characterise the non-matching lines.) -/
theorem header_line_outcomes (st : HState) (line : List Char) :
    (∀ stripped, dropPre ("##".toList) line = some stripped →
      valid_dict_check stripped = false → processLine st line = some st) ∧
    (startsWithL ("#CHROM".toList) line = false → (trimL line).length ≠ 0 →
      dropPre ("##".toList) line = none → processLine st line = none) ∧
    (∀ stripped l, dropPre ("##".toList) line = some stripped →
      valid_dict_check stripped = true → findIdx '<' line = some l →
      rfindIdx '>' (line.drop (l + 1)) = none → processLine st line = none) ∧
    (∀ stripped l r, dropPre ("##".toList) line = some stripped →
      valid_dict_check stripped = true → findIdx '<' line = some l →
      rfindIdx '>' (line.drop (l + 1)) = some r →
      parseKVs [] (splitListOn ',' ((line.drop (l + 1)).take r)) = none →
      processLine st line = none) := by
  have hch : ∀ s : List Char,
      startsWithL ['#', 'C', 'H', 'R', 'O', 'M'] ('#' :: '#' :: s) = false := by
    intro s
    rw [startsWithL, dropPre, if_pos rfl, dropPre, if_neg (by decide)]
    rfl
  have hbl : ∀ s : List Char, ¬((trimL ('#' :: '#' :: s)).length = 0) := by
    intro s hzero
    exact trimL_ne_nil ('#' :: '#' :: s) '#' (by simp) (by decide)
      (List.length_eq_zero.mp hzero)
  have hdp : ∀ s : List Char,
      dropPre ("##".toList) ('#' :: '#' :: s) = some s := by
    intro s
    simp [dropPre]
  refine ⟨?_, ?_, ?_, ?_⟩
  · intro stripped h1 h2
    obtain rfl := dropPre_hash2 line stripped h1
    rw [processLine, if_neg (by simp [hch]), if_neg (hbl stripped), hdp]
    simp [h2]
  · intro h1 h2 h3
    rw [processLine,
      if_neg (by simp [show startsWithL ['#', 'C', 'H', 'R', 'O', 'M'] line = false
        from h1]),
      if_neg h2, h3]
  · intro stripped l h1 hval hfind hrf
    obtain rfl := dropPre_hash2 line stripped h1
    simp only [List.drop_succ_cons] at hrf
    rw [processLine, if_neg (by simp [hch]), if_neg (hbl stripped), hdp]
    simp [hval, hfind, hrf]
  · intro stripped l r h1 hval hfind hrf hkv
    obtain rfl := dropPre_hash2 line stripped h1
    simp only [List.drop_succ_cons] at hrf hkv
    rw [processLine, if_neg (by simp [hch]), if_neg (hbl stripped), hdp]
    simp [hval, hfind, hrf, hkv]

theorem header_line_outcomes_witness :
    processLine initState ("##fileformat=VCFv4.2".toList) = some initState ∧
    processLine initState ("abc".toList) = none ∧
    processLine initState ("##X=<ID=1".toList) = none ∧
    processLine initState ("##Y=<AB>".toList) = none :=
  ⟨(header_line_outcomes initState ("##fileformat=VCFv4.2".toList)).1
     ("fileformat=VCFv4.2".toList) (by decide) (by decide),
   (header_line_outcomes initState ("abc".toList)).2.1
     (by decide) (by decide) (by decide),
   (header_line_outcomes initState ("##X=<ID=1".toList)).2.2.1
     ("X=<ID=1".toList) 4 (by decide) (by decide) (by decide) (by decide),
   (header_line_outcomes initState ("##Y=<AB>".toList)).2.2.2
     ("Y=<AB>".toList) 4 2 (by decide) (by decide) (by decide) (by decide)
     (by decide)⟩
